import Mathlib

/-!
A shallow embedding of the Wavefront OBJ lexer/parser implemented in
`src/12_ObjParser/src/Karma/kabstractobjparser.cpp`, together with theorems
checking the natural-language specification of that engine.

Modelling conventions:
* Characters from the reader are `Option Char`; `none` models
  `KAbstractReader::EndOfFile` (the reader header is not part of the sources,
  its pull interface is modelled from the spec).
* The C++ `float` values are modelled exactly, as unnormalized rational pairs
  (`Q`), with the operations the source performs (integer cast, add, subtract,
  divide, multiply by a power of ten).
* Machine integers (`int`) are modelled as `Int`; the claims under study never
  exercise overflow.  The `static_cast<uint64_t>` on face indices is modelled
  with an explicit reduction modulo `2 ^ 64`.
* Every loop of the source carries an explicit fuel argument; exhausting the
  fuel yields `none`, so all definitions are structurally recursive and
  kernel-computable.
* Fatal aborts (`qFatal` inside `LEX_ERROR`, `expectToken`, and the error
  dispatch arm of `parse`) are modelled as values of `Fatal` carried in an
  `Except` layer.
-/

namespace ObjParse

/-- Decidable equality for `Except`, needed to evaluate concrete parse
results. -/
instance exceptDecEq {ε α : Type} [DecidableEq ε] [DecidableEq α] :
    DecidableEq (Except ε α) := fun a b =>
  match a, b with
  | .error e₁, .error e₂ =>
    if h : e₁ = e₂ then isTrue (by rw [h]) else isFalse (by intro hc; cases hc; exact h rfl)
  | .error _, .ok _ => isFalse (by intro hc; cases hc)
  | .ok _, .error _ => isFalse (by intro hc; cases hc)
  | .ok a₁, .ok a₂ =>
    if h : a₁ = a₂ then isTrue (by rw [h]) else isFalse (by intro hc; cases hc; exact h rfl)

/-- Exact unnormalized rationals standing in for the C++ `float`/`double`
values.  All reachable operations keep the denominator positive. -/
structure Q where
  num : Int
  den : Int
  deriving DecidableEq

/-- `static_cast<float>(int)` / a float literal with integral value. -/
def qOfInt (i : Int) : Q := ⟨i, 1⟩

/-- Float addition (exact). -/
def qAdd (a b : Q) : Q := ⟨a.num * b.den + b.num * a.den, a.den * b.den⟩

/-- Float subtraction (exact). -/
def qSub (a b : Q) : Q := ⟨a.num * b.den - b.num * a.den, a.den * b.den⟩

/-- Float multiplication (exact). -/
def qMul (a b : Q) : Q := ⟨a.num * b.num, a.den * b.den⟩

/-- Float division (exact); in the source it is only applied with a positive
power of ten as the divisor. -/
def qDiv (a b : Q) : Q := ⟨a.num * b.den, a.den * b.num⟩

/-- Modelled from the spec: `std::powf(10.0f, power)` for an integer exponent,
as an exact rational. -/
def powTen (p : Int) : Q :=
  if 0 ≤ p then ⟨(10 : Int) ^ p.toNat, 1⟩ else ⟨1, (10 : Int) ^ (-p).toNat⟩

/-- Token kinds, mirroring `enum ParseToken`. -/
inductive ParseToken where
  | PT_ERROR
  | PT_EOF
  | PT_VERTEX
  | PT_TEXTURE
  | PT_NORMAL
  | PT_PARAMETER
  | PT_FACE
  | PT_OBJECT
  | PT_GROUP
  | PT_ENDSTATEMENT
  | PT_STRING
  | PT_INTEGER
  | PT_FLOAT
  | PT_MATERIAL
  | PT_USEMATERIAL
  | PT_SMOOTHING
  | PT_SEPARATOR
  deriving DecidableEq

/-- Modelled from the spec: `Karma::isNumeric` (the header `kcommon.h` is not
among the sources); per the spec a numeric lexical item starts with a digit. -/
def isNumeric (c : Char) : Bool := c.isDigit

/-- Modelled from the spec: `Karma::isAlpha` classifies alphabetic characters. -/
def isAlpha (c : Char) : Bool := c.isAlpha

/-- Modelled from the spec: `Karma::ctoi`, the character code minus the code of
`'0'`. -/
def ctoi (c : Char) : Int := (c.toNat : Int) - 48

/-- `Karma::ctoi` applied to a reader value; the end-of-file value is modelled
as `-1`, so `ctoi` of it is `-49` (never reached by the claims). -/
def ctoiOpt : Option Char → Int
  | some c => ctoi c
  | none => -49

/-- `Karma::isNumeric` on a reader value; end-of-file is not numeric. -/
def isNumericOpt : Option Char → Bool
  | some c => isNumeric c
  | none => false

/-- `Karma::isAlpha` on a reader value; end-of-file is not alphabetic. -/
def isAlphaOpt : Option Char → Bool
  | some c => isAlpha c
  | none => false

/-- Modelled from the spec: `Karma::toLower` on a reader value. -/
def toLowerOpt : Option Char → Option Char
  | some c => some c.toLower
  | none => none

/-- The reserved keyword table `sg_reserved` built by the `ParseMap`
constructor. -/
def sg_reserved (s : String) : Option ParseToken :=
  if s = "v" then some .PT_VERTEX
  else if s = "vt" then some .PT_TEXTURE
  else if s = "vn" then some .PT_NORMAL
  else if s = "vp" then some .PT_PARAMETER
  else if s = "f" then some .PT_FACE
  else if s = "o" then some .PT_OBJECT
  else if s = "g" then some .PT_GROUP
  else if s = "mtllib" then some .PT_MATERIAL
  else if s = "usemtl" then some .PT_USEMATERIAL
  else if s = "s" then some .PT_SMOOTHING
  else none

/-- `class Token`: kind, lexicon, and attribute.  The C++ attribute is a union
of `int` and `float`; it is modelled as two fields, each meaningful only for
the corresponding literal kind (the source never reads the inactive member). -/
structure Token where
  m_token : ParseToken
  m_lexicon : String
  attribInt : Int
  attribFloat : Q
  deriving DecidableEq

/-- The default-constructed token (`Token::Token()`): kind `PT_ERROR`, empty
lexicon; the union is uninitialized and modelled as zero. -/
def initToken : Token :=
  { m_token := .PT_ERROR, m_lexicon := "", attribInt := 0, attribFloat := ⟨0, 1⟩ }

/-- The reader/lexer portion of `KAbstractObjParserPrivate`: the two-character
lookahead, the remaining input of the reader, the two-token lookahead, and the
line/column statistics. -/
structure LexState where
  m_currChar : Option Char
  m_peekChar : Option Char
  input : List Char
  m_currToken : Token
  m_peekToken : Token
  m_currLineCount : Int
  m_currCharCount : Int
  deriving DecidableEq

/-- The fatal error channel: `LEX_ERROR` in `lexToken` (unexpected character
with position), `LEX_ERROR` in `expectToken` (token mismatch), and the
`qFatal` in the `PT_ERROR` arm of `parse`. -/
inductive Fatal where
  | lexError (line col : Int) (c : Char)
  | tokenMismatch (expected actual : ParseToken)
  | parseAbort
  deriving DecidableEq

/-- Whether a fatal error is the lexer's unexpected-character error. -/
def Fatal.isLexError : Fatal → Bool
  | .lexError _ _ _ => true
  | _ => false

/-- `KAbstractObjParserPrivate::nextChar`. -/
def nextChar (s : LexState) : Option Char × LexState :=
  let c := s.m_peekChar
  let s' := { s with m_currChar := c, m_peekChar := s.input.head?, input := s.input.tail }
  if c = some '\n' then
    (c, { s' with m_currLineCount := s'.m_currLineCount + 1, m_currCharCount := 0 })
  else
    (c, { s' with m_currCharCount := s'.m_currCharCount + 1 })

/-- The read-until-newline loop of `KAbstractObjParserPrivate::nextLine`,
starting from the value just moved into `m_currChar`. -/
def skipLineAux : Option Char → List Char → Option Char × List Char
  | c, [] => if c = some '\n' then (c, []) else (none, [])
  | c, x :: xs => if c = some '\n' then (c, x :: xs) else skipLineAux (some x) xs

/-- `KAbstractObjParserPrivate::nextLine`. -/
def nextLine (s : LexState) : LexState :=
  let r := skipLineAux s.m_peekChar s.input
  { s with
    m_currLineCount := s.m_currLineCount + 1
    m_currCharCount := 0
    m_currChar := r.1
    m_peekChar := r.2.head?
    input := r.2.tail }

/-- The digit-accumulation loop shared by both `lexReadInteger` overloads. -/
def lexReadIntegerLoop : Nat → Int → LexState → Option (Int × LexState)
  | 0, _, _ => none
  | fuel + 1, acc, s =>
    if isNumericOpt s.m_peekChar then
      let r := nextChar s
      lexReadIntegerLoop fuel (acc * 10 + ctoiOpt r.1) r.2
    else
      some (acc, s)

/-- `KAbstractObjParserPrivate::lexReadInteger()` (no power tracking). -/
def lexReadInteger (fuel : Nat) (s : LexState) : Option (Int × LexState) :=
  let sign : Int := if s.m_currChar = some '-' then -1 else 1
  let init : Int :=
    if s.m_currChar = some '-' then 0
    else if s.m_currChar = some '+' then 0
    else ctoiOpt s.m_currChar
  match lexReadIntegerLoop fuel init s with
  | none => none
  | some (i, s') => some (sign * i, s')

/-- The digit-accumulation loop of `lexReadInteger(int *power)`, which also
multiplies the power accumulator by ten per iteration. -/
def lexReadIntegerPowLoop : Nat → Int → Int → LexState → Option (Int × Int × LexState)
  | 0, _, _, _ => none
  | fuel + 1, acc, pw, s =>
    if isNumericOpt s.m_peekChar then
      let r := nextChar s
      lexReadIntegerPowLoop fuel (acc * 10 + ctoiOpt r.1) (pw * 10) r.2
    else
      some (acc, pw, s)

/-- `KAbstractObjParserPrivate::lexReadInteger(int *power)`. -/
def lexReadIntegerPow (fuel : Nat) (s : LexState) : Option (Int × Int × LexState) :=
  let sign : Int := if s.m_currChar = some '-' then -1 else 1
  let init : Int :=
    if s.m_currChar = some '-' then 0
    else if s.m_currChar = some '+' then 0
    else ctoiOpt s.m_currChar
  match lexReadIntegerPowLoop fuel init 1 s with
  | none => none
  | some (i, pw, s') => some (sign * i, pw, s')

/-- `KAbstractObjParserPrivate::lexTokenFloatExponent`. -/
def lexTokenFloatExponent (fuel : Nat) (tok : Token) (value : Q) (s : LexState) :
    Option (ParseToken × Token × LexState) :=
  match lexReadInteger fuel s with
  | none => none
  | some (power, s₁) =>
    some (.PT_FLOAT, { tok with attribFloat := qMul value (powTen power) }, s₁)

/-- `KAbstractObjParserPrivate::lexTokenFloat`. -/
def lexTokenFloat (fuel : Nat) (tok : Token) (integer : Int) (s : LexState) :
    Option (ParseToken × Token × LexState) :=
  match lexReadIntegerPow fuel s with
  | none => none
  | some (fraction, power, s₁) =>
    let decimal : Q := qDiv (qOfInt fraction) (qOfInt power)
    let value : Q :=
      if 0 ≤ integer then qAdd (qOfInt integer) decimal else qSub (qOfInt integer) decimal
    if toLowerOpt s₁.m_peekChar = some 'e' then
      let r₁ := nextChar s₁
      let r₂ := nextChar r₁.2
      lexTokenFloatExponent fuel tok value r₂.2
    else
      some (.PT_FLOAT, { tok with attribFloat := value }, s₁)

/-- `KAbstractObjParserPrivate::lexTokenInteger`. -/
def lexTokenInteger (fuel : Nat) (tok : Token) (s : LexState) :
    Option (ParseToken × Token × LexState) :=
  match lexReadInteger fuel s with
  | none => none
  | some (integer, s₁) =>
    if s₁.m_peekChar = some '.' then
      let r₁ := nextChar s₁
      let r₂ := nextChar r₁.2
      lexTokenFloat fuel tok integer r₂.2
    else
      some (.PT_INTEGER, { tok with attribInt := integer }, s₁)

/-- The alphabetic-accumulation loop of `lexTokenIdentifier`. -/
def lexTokenIdentLoop : Nat → String → LexState → Option (String × LexState)
  | 0, _, _ => none
  | fuel + 1, acc, s =>
    match s.m_peekChar with
    | some c =>
      if isAlpha c then
        let r := nextChar s
        lexTokenIdentLoop fuel (acc.push c) r.2
      else
        some (acc, s)
    | none => some (acc, s)

/-- `KAbstractObjParserPrivate::symResolve`. -/
def symResolve (tok : Token) (t : ParseToken) : ParseToken :=
  match sg_reserved tok.m_lexicon with
  | some k => k
  | none => t

/-- `KAbstractObjParserPrivate::lexTokenIdentifier`. -/
def lexTokenIdentifier (fuel : Nat) (tok : Token) (s : LexState) :
    Option (ParseToken × Token × LexState) :=
  match s.m_currChar with
  | none => none
  | some c0 =>
    match lexTokenIdentLoop fuel (String.mk [c0]) s with
    | none => none
    | some (lexi, s₁) =>
      let tok₁ := { tok with m_lexicon := lexi }
      some (symResolve tok₁ .PT_STRING, tok₁, s₁)

/-- The tokenization loop of `KAbstractObjParserPrivate::lexToken` (everything
after the deferred line-skip switch). -/
def lexTokenLoop : Nat → Token → LexState → Option (Except Fatal (ParseToken × Token × LexState))
  | 0, _, _ => none
  | fuel + 1, tok, s =>
    let r := nextChar s
    let s₁ := r.2
    match r.1 with
    | none => some (.ok (.PT_EOF, tok, s₁))
    | some c =>
      if c = ' ' ∨ c = '\t' ∨ c = '\r' then
        lexTokenLoop fuel tok s₁
      else if c = '\n' then
        some (.ok (.PT_ENDSTATEMENT, tok, s₁))
      else if c = '#' then
        some (.ok (.PT_ENDSTATEMENT, tok, nextLine s₁))
      else if c = '/' then
        some (.ok (.PT_SEPARATOR, tok, s₁))
      else if isNumeric c then
        match lexTokenInteger fuel tok s₁ with
        | none => none
        | some out => some (.ok out)
      else if isAlpha c then
        match lexTokenIdentifier fuel tok s₁ with
        | none => none
        | some out => some (.ok out)
      else
        some (.error (.lexError s₁.m_currLineCount s₁.m_currCharCount c))

/-- `KAbstractObjParserPrivate::lexToken`: the deferred line-skip switch on the
just-consumed token (note that the source lists `PT_GROUP`, `PT_OBJECT`,
`PT_SMOOTHING`, `PT_MATERIAL` but not `PT_USEMATERIAL`), then tokenization. -/
def lexToken (fuel : Nat) (tok : Token) (s : LexState) :
    Option (Except Fatal (ParseToken × Token × LexState)) :=
  let s0 :=
    match s.m_currToken.m_token with
    | .PT_GROUP => nextLine s
    | .PT_OBJECT => nextLine s
    | .PT_SMOOTHING => nextLine s
    | .PT_MATERIAL => nextLine s
    | _ => s
  lexTokenLoop fuel tok s0

/-- `KAbstractObjParserPrivate::nextToken`: swap the token buffers, lex the new
peek token in place, and return the (new) current token. -/
def nextToken (fuel : Nat) (s : LexState) : Option (Except Fatal (Token × LexState)) :=
  let s₁ := { s with m_currToken := s.m_peekToken, m_peekToken := s.m_currToken }
  match lexToken fuel s₁.m_peekToken s₁ with
  | none => none
  | some (.error e) => some (.error e)
  | some (.ok (k, tok, s₂)) =>
    let s₃ := { s₂ with m_peekToken := { tok with m_token := k } }
    some (.ok (s₃.m_currToken, s₃))

/-- `KAbstractObjParserPrivate::expectToken` (defined by the source but never
invoked by any statement rule). -/
def expectToken (fuel : Nat) (t : ParseToken) (s : LexState) :
    Option (Except Fatal LexState) :=
  match nextToken fuel s with
  | none => none
  | some (.error e) => some (.error e)
  | some (.ok (tok, s₁)) =>
    if tok.m_token = t then some (.ok s₁)
    else some (.error (.tokenMismatch t tok.m_token))

/-- `KAbstractObjParserPrivate::checkToken`. -/
def checkToken (fuel : Nat) (t : ParseToken) (s : LexState) :
    Option (Except Fatal (Bool × LexState)) :=
  if s.m_peekToken.m_token = t then
    match nextToken fuel s with
    | none => none
    | some (.error e) => some (.error e)
    | some (.ok (_, s₁)) => some (.ok (true, s₁))
  else
    some (.ok (false, s))

/-- `KAbstractObjParserPrivate`'s statistics counters. -/
structure Stats where
  m_vertexCount : Nat
  m_textureCount : Nat
  m_normalCount : Nat
  m_parameterCount : Nat
  m_faceCount : Nat
  deriving DecidableEq

/-- The Sink callbacks of `KAbstractObjParser` as observable events.  A face
event records the scratch vector handed out by pointer (including the final
default-initialized entry the do-while loop leaves behind) together with the
transmitted count `size() - 1`. -/
inductive Event where
  | onVertex (x y z w : Q)
  | onTexture (u v w : Q)
  | onNormal (x y z : Q)
  | onParameter (u v w : Q)
  | onFace (buffer : List (Nat × Nat × Nat)) (count : Nat)
  deriving DecidableEq

/-- The full parser state: lexer state, statistics, the `m_float4` scratch
buffer, the face scratch vector, and the trace of Sink events emitted so
far. -/
structure PState where
  lex : LexState
  stats : Stats
  m_float4 : Q × Q × Q × Q
  m_vector_index_array : List (Nat × Nat × Nat)
  events : List Event
  deriving DecidableEq

/-- `KAbstractObjParserPrivate::parseFloat(float &f)`: peek the token kind, on
a literal consume it and return its value as a float, otherwise leave the
state untouched and report failure. -/
def parseFloat (fuel : Nat) (s : LexState) : Option (Except Fatal (Option Q × LexState)) :=
  match s.m_peekToken.m_token with
  | .PT_FLOAT =>
    match nextToken fuel s with
    | none => none
    | some (.error e) => some (.error e)
    | some (.ok (tok, s₁)) => some (.ok (some tok.attribFloat, s₁))
  | .PT_INTEGER =>
    match nextToken fuel s with
    | none => none
    | some (.error e) => some (.error e)
    | some (.ok (tok, s₁)) => some (.ok (some (qOfInt tok.attribInt), s₁))
  | _ => some (.ok (none, s))

/-- A call `parseFloat(slot)` on a scratch slot holding `old`: the slot's new
content (unchanged on failure, mirroring the by-reference argument) together
with the returned success flag. -/
def parseFloatApply (fuel : Nat) (old : Q) (s : LexState) :
    Option (Except Fatal (Q × Bool × LexState)) :=
  match parseFloat fuel s with
  | none => none
  | some (.error e) => some (.error e)
  | some (.ok (none, s₁)) => some (.ok (old, false, s₁))
  | some (.ok (some v, s₁)) => some (.ok (v, true, s₁))

/-- The `static_cast<uint64_t>` applied to a face index integer. -/
def u64ofInt (i : Int) : Nat := (i % (2 : Int) ^ 64).toNat

/-- `KAbstractObjParserPrivate::parseInteger`. -/
def parseInteger (fuel : Nat) (s : LexState) :
    Option (Except Fatal (Option Nat × LexState)) :=
  match s.m_peekToken.m_token with
  | .PT_INTEGER =>
    match nextToken fuel s with
    | none => none
    | some (.error e) => some (.error e)
    | some (.ok (tok, s₁)) => some (.ok (some (u64ofInt tok.attribInt), s₁))
  | _ => some (.ok (none, s))

/-- `KAbstractObjParserPrivate::parseVertex`. -/
def parseVertex (fuel : Nat) (ps : PState) : Option (Except Fatal PState) :=
  let st := { ps.stats with m_vertexCount := ps.stats.m_vertexCount + 1 }
  match parseFloatApply fuel ps.m_float4.1 ps.lex with
  | none => none
  | some (.error e) => some (.error e)
  | some (.ok (v0, _, s1)) =>
    match parseFloatApply fuel ps.m_float4.2.1 s1 with
    | none => none
    | some (.error e) => some (.error e)
    | some (.ok (v1, _, s2)) =>
      match parseFloatApply fuel ps.m_float4.2.2.1 s2 with
      | none => none
      | some (.error e) => some (.error e)
      | some (.ok (v2, _, s3)) =>
        match parseFloatApply fuel ps.m_float4.2.2.2 s3 with
        | none => none
        | some (.error e) => some (.error e)
        | some (.ok (v3, ok3, s4)) =>
          let w := if ok3 then v3 else qOfInt 1
          some (.ok { ps with
            lex := s4
            stats := st
            m_float4 := (v0, v1, v2, w)
            events := ps.events ++ [Event.onVertex v0 v1 v2 w] })

/-- `KAbstractObjParserPrivate::parseTexture`. -/
def parseTexture (fuel : Nat) (ps : PState) : Option (Except Fatal PState) :=
  let st := { ps.stats with m_textureCount := ps.stats.m_textureCount + 1 }
  match parseFloatApply fuel ps.m_float4.1 ps.lex with
  | none => none
  | some (.error e) => some (.error e)
  | some (.ok (v0, _, s1)) =>
    match parseFloatApply fuel ps.m_float4.2.1 s1 with
    | none => none
    | some (.error e) => some (.error e)
    | some (.ok (v1, _, s2)) =>
      match parseFloatApply fuel ps.m_float4.2.2.1 s2 with
      | none => none
      | some (.error e) => some (.error e)
      | some (.ok (v2, ok2, s3)) =>
        let w := if ok2 then v2 else qOfInt 1
        some (.ok { ps with
          lex := s3
          stats := st
          m_float4 := (v0, v1, w, ps.m_float4.2.2.2)
          events := ps.events ++ [Event.onTexture v0 v1 w] })

/-- `KAbstractObjParserPrivate::parseNormal`. -/
def parseNormal (fuel : Nat) (ps : PState) : Option (Except Fatal PState) :=
  let st := { ps.stats with m_normalCount := ps.stats.m_normalCount + 1 }
  match parseFloatApply fuel ps.m_float4.1 ps.lex with
  | none => none
  | some (.error e) => some (.error e)
  | some (.ok (v0, _, s1)) =>
    match parseFloatApply fuel ps.m_float4.2.1 s1 with
    | none => none
    | some (.error e) => some (.error e)
    | some (.ok (v1, _, s2)) =>
      match parseFloatApply fuel ps.m_float4.2.2.1 s2 with
      | none => none
      | some (.error e) => some (.error e)
      | some (.ok (v2, _, s3)) =>
        some (.ok { ps with
          lex := s3
          stats := st
          m_float4 := (v0, v1, v2, ps.m_float4.2.2.2)
          events := ps.events ++ [Event.onNormal v0 v1 v2] })

/-- `KAbstractObjParserPrivate::parseParameter`: the second slot defaults to
0 when absent, in which case the third slot is never attempted (and keeps its
previous content); otherwise the third slot defaults to 0 when absent. -/
def parseParameter (fuel : Nat) (ps : PState) : Option (Except Fatal PState) :=
  let st := { ps.stats with m_parameterCount := ps.stats.m_parameterCount + 1 }
  match parseFloatApply fuel ps.m_float4.1 ps.lex with
  | none => none
  | some (.error e) => some (.error e)
  | some (.ok (v0, _, s1)) =>
    match parseFloatApply fuel ps.m_float4.2.1 s1 with
    | none => none
    | some (.error e) => some (.error e)
    | some (.ok (v1, ok1, s2)) =>
      if ok1 then
        match parseFloatApply fuel ps.m_float4.2.2.1 s2 with
        | none => none
        | some (.error e) => some (.error e)
        | some (.ok (v2, ok2, s3)) =>
          let w2 := if ok2 then v2 else qOfInt 0
          some (.ok { ps with
            lex := s3
            stats := st
            m_float4 := (v0, v1, w2, ps.m_float4.2.2.2)
            events := ps.events ++ [Event.onParameter v0 v1 w2] })
      else
        some (.ok { ps with
          lex := s2
          stats := st
          m_float4 := (v0, qOfInt 0, ps.m_float4.2.2.1, ps.m_float4.2.2.2)
          events := ps.events ++ [Event.onParameter v0 (qOfInt 0) ps.m_float4.2.2.1] })

/-- One optional texture/normal slot of a face group: the
`if (checkToken(PT_SEPARATOR)) { if (!parseInteger(slot)) slot = 0; } else
slot = 0;` block of `parseFaceIndices`. -/
def parseFaceSlot (fuel : Nat) (s : LexState) : Option (Except Fatal (Nat × LexState)) :=
  match checkToken fuel .PT_SEPARATOR s with
  | none => none
  | some (.error e) => some (.error e)
  | some (.ok (true, s₁)) =>
    match parseInteger fuel s₁ with
    | none => none
    | some (.error e) => some (.error e)
    | some (.ok (r, s₂)) => some (.ok (r.getD 0, s₂))
  | some (.ok (false, s₁)) => some (.ok (0, s₁))

/-- `KAbstractObjParserPrivate::parseFaceIndices`: `none` when the mandatory
leading integer is absent (loop termination, not an error), otherwise the
decoded index triple with sentinel `0` for omitted texture/normal slots. -/
def parseFaceIndices (fuel : Nat) (s : LexState) :
    Option (Except Fatal (Option (Nat × Nat × Nat) × LexState)) :=
  match parseInteger fuel s with
  | none => none
  | some (.error e) => some (.error e)
  | some (.ok (none, s₁)) => some (.ok (none, s₁))
  | some (.ok (some i0, s₁)) =>
    match parseFaceSlot fuel s₁ with
    | none => none
    | some (.error e) => some (.error e)
    | some (.ok (i1, s₃)) =>
      match parseFaceSlot fuel s₃ with
      | none => none
      | some (.error e) => some (.error e)
      | some (.ok (i2, s₅)) => some (.ok (some (i0, i1, i2), s₅))

/-- The do-while loop of `parseFace`, returning the successfully decoded
groups in order. -/
def parseFaceLoop : Nat → LexState → Option (Except Fatal (List (Nat × Nat × Nat) × LexState))
  | 0, _ => none
  | fuel + 1, s =>
    match parseFaceIndices fuel s with
    | none => none
    | some (.error e) => some (.error e)
    | some (.ok (none, s₁)) => some (.ok ([], s₁))
    | some (.ok (some tri, s₁)) =>
      match parseFaceLoop fuel s₁ with
      | none => none
      | some (.error e) => some (.error e)
      | some (.ok (rest, s₂)) => some (.ok (tri :: rest, s₂))

/-- `KAbstractObjParserPrivate::parseFace`: clear the scratch vector, decode
groups until one fails (leaving one default-initialized entry at the back),
then emit `onFace(front, size() - 1)`.  The face counter is not touched by the
source. -/
def parseFace (fuel : Nat) (ps : PState) : Option (Except Fatal PState) :=
  match parseFaceLoop fuel ps.lex with
  | none => none
  | some (.error e) => some (.error e)
  | some (.ok (groups, s₁)) =>
    let buffer := groups ++ [(0, 0, 0)]
    some (.ok { ps with
      lex := s₁
      m_vector_index_array := buffer
      events := ps.events ++ [Event.onFace buffer (buffer.length - 1)] })

/-- The top-level dispatch loop of `KAbstractObjParserPrivate::parse`.  The
`PT_FACE` arm falls through into the `PT_ENDSTATEMENT` arm in the source,
which is behaviourally `parseFace` followed by continuing the loop. -/
def parseLoop : Nat → PState → Option (Except Fatal (Bool × PState))
  | 0, _ => none
  | fuel + 1, ps =>
    match nextToken fuel ps.lex with
    | none => none
    | some (.error e) => some (.error e)
    | some (.ok (tok, s₁)) =>
      let ps₁ := { ps with lex := s₁ }
      match tok.m_token with
      | .PT_ERROR => some (.error .parseAbort)
      | .PT_EOF => some (.ok (true, ps₁))
      | .PT_VERTEX =>
        match parseVertex fuel ps₁ with
        | none => none
        | some (.error e) => some (.error e)
        | some (.ok ps₂) => parseLoop fuel ps₂
      | .PT_TEXTURE =>
        match parseTexture fuel ps₁ with
        | none => none
        | some (.error e) => some (.error e)
        | some (.ok ps₂) => parseLoop fuel ps₂
      | .PT_NORMAL =>
        match parseNormal fuel ps₁ with
        | none => none
        | some (.error e) => some (.error e)
        | some (.ok ps₂) => parseLoop fuel ps₂
      | .PT_PARAMETER =>
        match parseParameter fuel ps₁ with
        | none => none
        | some (.error e) => some (.error e)
        | some (.ok ps₂) => parseLoop fuel ps₂
      | .PT_FACE =>
        match parseFace fuel ps₁ with
        | none => none
        | some (.error e) => some (.error e)
        | some (.ok ps₂) => parseLoop fuel ps₂
      | _ => parseLoop fuel ps₁

/-- The `KAbstractObjParserPrivate` constructor: statistics initialized, one
`nextChar` to prime the character lookahead.  The uninitialized
`m_currChar`/`m_peekChar` are modelled as end-of-file values. -/
def mkInit (input : List Char) : LexState :=
  let s0 : LexState :=
    { m_currChar := none
      m_peekChar := none
      input := input
      m_currToken := initToken
      m_peekToken := initToken
      m_currLineCount := 1
      m_currCharCount := -1 }
  (nextChar s0).2

/-- The constructor's priming `nextToken`, producing the initial parser state.
The uninitialized `m_float4` scratch buffer is supplied as a parameter. -/
def initPState (fuel : Nat) (input : List Char) (scratch : Q × Q × Q × Q) :
    Option (Except Fatal PState) :=
  match nextToken fuel (mkInit input) with
  | none => none
  | some (.error e) => some (.error e)
  | some (.ok (_, s₁)) =>
    some (.ok
      { lex := s₁
        stats := ⟨0, 0, 0, 0, 0⟩
        m_float4 := scratch
        m_vector_index_array := []
        events := [] })

/-- `KAbstractObjParser::parse` on a character stream: construct the private
parser, then run the dispatch loop. -/
def runParse (fuel : Nat) (input : List Char) (scratch : Q × Q × Q × Q) :
    Option (Except Fatal (Bool × PState)) :=
  match initPState fuel input scratch with
  | none => none
  | some (.error e) => some (.error e)
  | some (.ok ps) => parseLoop fuel ps

/-- A driver that pulls tokens through `nextToken` until `PT_EOF`, collecting
the tokens the parser would observe (including the deferred line-skip
behaviour). -/
def tokenizeLoop : Nat → LexState → Option (Except Fatal (List Token))
  | 0, _ => none
  | fuel + 1, s =>
    match nextToken fuel s with
    | none => none
    | some (.error e) => some (.error e)
    | some (.ok (tok, s₁)) =>
      match tok.m_token with
      | .PT_EOF => some (.ok [])
      | _ =>
        match tokenizeLoop fuel s₁ with
        | none => none
        | some (.error e) => some (.error e)
        | some (.ok rest) => some (.ok (tok :: rest))

/-- Tokenize a whole character stream as the parser would see it: prime the
lookahead as the constructor does, then collect tokens until end-of-input. -/
def tokenize (fuel : Nat) (input : List Char) : Option (Except Fatal (List Token)) :=
  match nextToken fuel (mkInit input) with
  | none => none
  | some (.error e) => some (.error e)
  | some (.ok (_, s₁)) => tokenizeLoop fuel s₁

/-- Project a parse result onto the emitted event trace. -/
def eventsOf (r : Option (Except Fatal (Bool × PState))) :
    Option (Except Fatal (List Event)) :=
  r.map (Except.map (fun p => p.2.events))

/-- Project a token onto its kind and the two attribute views. -/
def tokenSummary (t : Token) : ParseToken × Int × Q :=
  (t.m_token, t.attribInt, t.attribFloat)

/-- Project a tokenization result onto the token summaries. -/
def tokensOf (r : Option (Except Fatal (List Token))) :
    Option (Except Fatal (List (ParseToken × Int × Q))) :=
  r.map (Except.map (List.map tokenSummary))

/-- A concrete all-zero scratch buffer, standing in for the uninitialized
`m_float4` in closed evaluations. -/
def z4 : Q × Q × Q × Q := (⟨0, 1⟩, ⟨0, 1⟩, ⟨0, 1⟩, ⟨0, 1⟩)

/-- The lexer invariant maintained by every `nextToken`: the lookahead token
was produced by `lexToken` and hence never has the error kind. -/
def Inv (s : LexState) : Prop := s.m_peekToken.m_token ≠ ParseToken.PT_ERROR

instance invDecidable (s : LexState) : Decidable (Inv s) :=
  inferInstanceAs (Decidable (s.m_peekToken.m_token ≠ ParseToken.PT_ERROR))

/-- Whether an event is a vertex event. -/
def isVertexEv : Event → Bool
  | .onVertex _ _ _ _ => true
  | _ => false

/-- Whether an event is a texture event. -/
def isTextureEv : Event → Bool
  | .onTexture _ _ _ => true
  | _ => false

/-- Whether an event is a normal event. -/
def isNormalEv : Event → Bool
  | .onNormal _ _ _ => true
  | _ => false

/-- Whether an event is a parameter event. -/
def isParameterEv : Event → Bool
  | .onParameter _ _ _ => true
  | _ => false

/-- Whether an event is a face event. -/
def isFaceEv : Event → Bool
  | .onFace _ _ => true
  | _ => false

/-- Number of events of a given kind in a trace. -/
def countEv (p : Event → Bool) (l : List Event) : Nat := (l.filter p).length

/-- How the statistics counters evolve along a stretch of the parse: the trace
is extended, each of the vertex/texture/normal/parameter counters grows by
exactly the number of newly emitted events of its kind, and the face counter
is untouched (the source never increments it). -/
def StatsRel (a b : PState) : Prop :=
  ∃ new,
    b.events = a.events ++ new ∧
    b.stats.m_vertexCount = a.stats.m_vertexCount + countEv isVertexEv new ∧
    b.stats.m_textureCount = a.stats.m_textureCount + countEv isTextureEv new ∧
    b.stats.m_normalCount = a.stats.m_normalCount + countEv isNormalEv new ∧
    b.stats.m_parameterCount = a.stats.m_parameterCount + countEv isParameterEv new ∧
    b.stats.m_faceCount = a.stats.m_faceCount

/-- A concrete parser state whose lookahead sits just after a consumed face
keyword, with the integer `1` as the lexed lookahead token and a newline
remaining; used to witness the face-statement lemmas on explicit input. -/
def psFaceDemo : PState :=
  { lex :=
      { m_currChar := some '1'
        m_peekChar := some '\n'
        input := []
        m_currToken := { initToken with m_token := .PT_FACE, m_lexicon := "f" }
        m_peekToken := { initToken with m_token := .PT_INTEGER, attribInt := 1 }
        m_currLineCount := 1
        m_currCharCount := 3 }
    stats := ⟨0, 0, 0, 0, 0⟩
    m_float4 := z4
    m_vector_index_array := []
    events := [] }

/-- A concrete parser state whose lookahead is an end-statement token (a
statement with all numeric fields absent), with a distinctive scratch buffer
content left over from an earlier statement. -/
def psEmptyStmtDemo : PState :=
  { lex :=
      { m_currChar := some 'p'
        m_peekChar := none
        input := []
        m_currToken := { initToken with m_token := .PT_PARAMETER, m_lexicon := "vp" }
        m_peekToken := { initToken with m_token := .PT_ENDSTATEMENT }
        m_currLineCount := 1
        m_currCharCount := 2 }
    stats := ⟨0, 0, 0, 0, 0⟩
    m_float4 := (⟨9, 1⟩, ⟨8, 1⟩, ⟨7, 1⟩, ⟨6, 1⟩)
    m_vector_index_array := []
    events := [] }

/-- A concrete lexer state whose current character is the digit `5` with
nothing following; used to witness the exponent lemma on explicit input. -/
def sExpDemo : LexState :=
  { m_currChar := some '5'
    m_peekChar := none
    input := []
    m_currToken := initToken
    m_peekToken := initToken
    m_currLineCount := 1
    m_currCharCount := 4 }

/-! ### Helper lemmas: the lexer does not touch the current-token buffer -/

theorem nextChar_currToken (s : LexState) : (nextChar s).2.m_currToken = s.m_currToken := by
  simp only [nextChar]
  split <;> rfl

theorem nextLine_currToken (s : LexState) : (nextLine s).m_currToken = s.m_currToken := rfl

theorem lexReadIntegerLoop_currToken :
    ∀ fuel acc s i s', lexReadIntegerLoop fuel acc s = some (i, s') →
      s'.m_currToken = s.m_currToken := by
  intro fuel
  induction fuel with
  | zero => intro acc s i s' h; exact Option.noConfusion h
  | succ n ih =>
    intro acc s i s' h
    simp only [lexReadIntegerLoop] at h
    split at h
    · exact (ih _ _ _ _ h).trans (nextChar_currToken s)
    · cases h; rfl

theorem lexReadInteger_currToken (fuel : Nat) (s : LexState) (i : Int) (s' : LexState)
    (h : lexReadInteger fuel s = some (i, s')) : s'.m_currToken = s.m_currToken := by
  simp only [lexReadInteger] at h
  split at h
  · exact Option.noConfusion h
  · next i₁ s₁ heq =>
    cases h
    exact lexReadIntegerLoop_currToken _ _ _ _ _ heq

theorem lexReadIntegerPowLoop_currToken :
    ∀ fuel acc pw s i pw' s', lexReadIntegerPowLoop fuel acc pw s = some (i, pw', s') →
      s'.m_currToken = s.m_currToken := by
  intro fuel
  induction fuel with
  | zero => intro acc pw s i pw' s' h; exact Option.noConfusion h
  | succ n ih =>
    intro acc pw s i pw' s' h
    simp only [lexReadIntegerPowLoop] at h
    split at h
    · exact (ih _ _ _ _ _ _ h).trans (nextChar_currToken s)
    · cases h; rfl

theorem lexReadIntegerPow_currToken (fuel : Nat) (s : LexState) (i pw : Int) (s' : LexState)
    (h : lexReadIntegerPow fuel s = some (i, pw, s')) : s'.m_currToken = s.m_currToken := by
  simp only [lexReadIntegerPow] at h
  split at h
  · exact Option.noConfusion h
  · next i₁ pw₁ s₁ heq =>
    cases h
    exact lexReadIntegerPowLoop_currToken _ _ _ _ _ _ _ heq

theorem lexTokenIdentLoop_currToken :
    ∀ fuel acc s l s', lexTokenIdentLoop fuel acc s = some (l, s') →
      s'.m_currToken = s.m_currToken := by
  intro fuel
  induction fuel with
  | zero => intro acc s l s' h; exact Option.noConfusion h
  | succ n ih =>
    intro acc s l s' h
    simp only [lexTokenIdentLoop] at h
    split at h
    · split at h
      · exact (ih _ _ _ _ h).trans (nextChar_currToken s)
      · cases h; rfl
    · cases h; rfl

/-! ### Helper lemmas: kinds produced by the token lexers -/

theorem lexTokenFloatExponent_spec (fuel : Nat) (tok : Token) (v : Q) (s : LexState)
    (k : ParseToken) (t : Token) (s' : LexState)
    (h : lexTokenFloatExponent fuel tok v s = some (k, t, s')) :
    k = .PT_FLOAT ∧ s'.m_currToken = s.m_currToken := by
  simp only [lexTokenFloatExponent] at h
  split at h
  · exact Option.noConfusion h
  · next p s₁ heq =>
    cases h
    exact ⟨rfl, lexReadInteger_currToken _ _ _ _ heq⟩

theorem lexTokenFloat_spec (fuel : Nat) (tok : Token) (i : Int) (s : LexState)
    (k : ParseToken) (t : Token) (s' : LexState)
    (h : lexTokenFloat fuel tok i s = some (k, t, s')) :
    k = .PT_FLOAT ∧ s'.m_currToken = s.m_currToken := by
  simp only [lexTokenFloat] at h
  split at h
  · exact Option.noConfusion h
  · next f p s₁ heq =>
    split at h
    · have h₁ := lexTokenFloatExponent_spec _ _ _ _ _ _ _ h
      refine ⟨h₁.1, ?_⟩
      rw [h₁.2, nextChar_currToken, nextChar_currToken]
      exact lexReadIntegerPow_currToken _ _ _ _ _ heq
    · cases h
      exact ⟨rfl, lexReadIntegerPow_currToken _ _ _ _ _ heq⟩

theorem lexTokenInteger_spec (fuel : Nat) (tok : Token) (s : LexState)
    (k : ParseToken) (t : Token) (s' : LexState)
    (h : lexTokenInteger fuel tok s = some (k, t, s')) :
    (k = .PT_INTEGER ∨ k = .PT_FLOAT) ∧ s'.m_currToken = s.m_currToken := by
  simp only [lexTokenInteger] at h
  split at h
  · exact Option.noConfusion h
  · next i s₁ heq =>
    split at h
    · have h₁ := lexTokenFloat_spec _ _ _ _ _ _ _ h
      refine ⟨Or.inr h₁.1, ?_⟩
      rw [h₁.2, nextChar_currToken, nextChar_currToken]
      exact lexReadInteger_currToken _ _ _ _ heq
    · cases h
      exact ⟨Or.inl rfl, lexReadInteger_currToken _ _ _ _ heq⟩

theorem sg_reserved_ne_error (s : String) (k : ParseToken)
    (h : sg_reserved s = some k) : k ≠ .PT_ERROR := by
  unfold sg_reserved at h
  repeat' split at h
  all_goals first
    | (cases h; intro hc; exact ParseToken.noConfusion hc)
    | exact Option.noConfusion h

theorem symResolve_ne_error (tok : Token) (t : ParseToken) (ht : t ≠ .PT_ERROR) :
    symResolve tok t ≠ .PT_ERROR := by
  unfold symResolve
  split
  · next k heq => exact sg_reserved_ne_error _ _ heq
  · exact ht

theorem lexTokenIdentifier_spec (fuel : Nat) (tok : Token) (s : LexState)
    (k : ParseToken) (t : Token) (s' : LexState)
    (h : lexTokenIdentifier fuel tok s = some (k, t, s')) :
    k ≠ .PT_ERROR ∧ s'.m_currToken = s.m_currToken := by
  simp only [lexTokenIdentifier] at h
  split at h
  · exact Option.noConfusion h
  · split at h
    · exact Option.noConfusion h
    · next l s₁ heq =>
      cases h
      exact ⟨symResolve_ne_error _ _ (by intro hc; exact ParseToken.noConfusion hc),
        lexTokenIdentLoop_currToken _ _ _ _ _ heq⟩

theorem lexTokenLoop_spec :
    ∀ fuel tok s r, lexTokenLoop fuel tok s = some r →
      (∀ e, r = .error e → e.isLexError = true) ∧
      (∀ k t s', r = .ok (k, t, s') → k ≠ .PT_ERROR ∧ s'.m_currToken = s.m_currToken) := by
  intro fuel
  induction fuel with
  | zero => intro tok s r h; exact Option.noConfusion h
  | succ n ih =>
    intro tok s r h
    simp only [lexTokenLoop] at h
    split at h
    · cases h
      refine ⟨fun e he => Except.noConfusion he, fun k t s' hk => ?_⟩
      cases hk
      exact ⟨fun hc => ParseToken.noConfusion hc, nextChar_currToken s⟩
    · split at h
      · have := ih _ _ _ h
        exact ⟨this.1, fun k t s' hk => ⟨(this.2 k t s' hk).1,
          ((this.2 k t s' hk).2).trans (nextChar_currToken s)⟩⟩
      · split at h
        · cases h
          refine ⟨fun e he => Except.noConfusion he, fun k t s' hk => ?_⟩
          cases hk
          exact ⟨fun hc => ParseToken.noConfusion hc, nextChar_currToken s⟩
        · split at h
          · cases h
            refine ⟨fun e he => Except.noConfusion he, fun k t s' hk => ?_⟩
            cases hk
            exact ⟨fun hc => ParseToken.noConfusion hc,
              (nextLine_currToken _).trans (nextChar_currToken s)⟩
          · split at h
            · cases h
              refine ⟨fun e he => Except.noConfusion he, fun k t s' hk => ?_⟩
              cases hk
              exact ⟨fun hc => ParseToken.noConfusion hc, nextChar_currToken s⟩
            · split at h
              · split at h
                · exact Option.noConfusion h
                · next out heq =>
                  cases h
                  refine ⟨fun e he => Except.noConfusion he, fun k t s' hk => ?_⟩
                  cases hk
                  have := lexTokenInteger_spec _ _ _ _ _ _ heq
                  refine ⟨?_, this.2.trans (nextChar_currToken s)⟩
                  rcases this.1 with h1 | h1 <;> (subst h1; intro hc; exact ParseToken.noConfusion hc)
              · split at h
                · split at h
                  · exact Option.noConfusion h
                  · next out heq =>
                    cases h
                    refine ⟨fun e he => Except.noConfusion he, fun k t s' hk => ?_⟩
                    cases hk
                    have := lexTokenIdentifier_spec _ _ _ _ _ _ heq
                    exact ⟨this.1, this.2.trans (nextChar_currToken s)⟩
                · cases h
                  refine ⟨fun e he => ?_, fun k t s' hk => Except.noConfusion hk⟩
                  cases he
                  rfl

theorem lexToken_spec (fuel : Nat) (tok : Token) (s : LexState) (r : Except Fatal (ParseToken × Token × LexState))
    (h : lexToken fuel tok s = some r) :
    (∀ e, r = .error e → e.isLexError = true) ∧
    (∀ k t s', r = .ok (k, t, s') → k ≠ .PT_ERROR ∧ s'.m_currToken = s.m_currToken) := by
  simp only [lexToken] at h
  split at h
  · have := lexTokenLoop_spec _ _ _ _ h
    exact ⟨this.1, fun k t s' hk => ⟨(this.2 k t s' hk).1,
      ((this.2 k t s' hk).2).trans (nextLine_currToken s)⟩⟩
  · have := lexTokenLoop_spec _ _ _ _ h
    exact ⟨this.1, fun k t s' hk => ⟨(this.2 k t s' hk).1,
      ((this.2 k t s' hk).2).trans (nextLine_currToken s)⟩⟩
  · have := lexTokenLoop_spec _ _ _ _ h
    exact ⟨this.1, fun k t s' hk => ⟨(this.2 k t s' hk).1,
      ((this.2 k t s' hk).2).trans (nextLine_currToken s)⟩⟩
  · have := lexTokenLoop_spec _ _ _ _ h
    exact ⟨this.1, fun k t s' hk => ⟨(this.2 k t s' hk).1,
      ((this.2 k t s' hk).2).trans (nextLine_currToken s)⟩⟩
  · exact lexTokenLoop_spec _ _ _ _ h

theorem nextToken_ok (fuel : Nat) (s : LexState) (t : Token) (s' : LexState)
    (h : nextToken fuel s = some (.ok (t, s'))) :
    t = s.m_peekToken ∧ Inv s' := by
  simp only [nextToken] at h
  split at h
  · exact Option.noConfusion h
  · exact Except.noConfusion (Option.some.inj h)
  · next k tok s₂ heq =>
    cases h
    have := (lexToken_spec _ _ _ _ heq).2 k tok s₂ rfl
    exact ⟨this.2, this.1⟩

theorem nextToken_error (fuel : Nat) (s : LexState) (e : Fatal)
    (h : nextToken fuel s = some (.error e)) : e.isLexError = true := by
  simp only [nextToken] at h
  split at h
  · exact Option.noConfusion h
  · next e₁ heq =>
    cases h
    exact (lexToken_spec _ _ _ _ heq).1 _ rfl
  · exact Except.noConfusion (Option.some.inj h)

/-! ### Helper lemmas: the statement-level primitives -/

theorem parseFloat_spec (fuel : Nat) (s : LexState) (r : Option Q) (s' : LexState)
    (hInv : Inv s) (h : parseFloat fuel s = some (.ok (r, s'))) : Inv s' := by
  unfold parseFloat at h
  split at h
  · split at h
    · exact Option.noConfusion h
    · exact Except.noConfusion (Option.some.inj h)
    · next tok s₁ heq =>
      cases h
      exact (nextToken_ok _ _ _ _ heq).2
  · split at h
    · exact Option.noConfusion h
    · exact Except.noConfusion (Option.some.inj h)
    · next tok s₁ heq =>
      cases h
      exact (nextToken_ok _ _ _ _ heq).2
  · cases h
    exact hInv

theorem parseFloat_error (fuel : Nat) (s : LexState) (e : Fatal)
    (h : parseFloat fuel s = some (.error e)) : e.isLexError = true := by
  unfold parseFloat at h
  split at h
  · split at h
    · exact Option.noConfusion h
    · next e₁ heq =>
      cases h
      exact nextToken_error _ _ _ heq
    · exact Except.noConfusion (Option.some.inj h)
  · split at h
    · exact Option.noConfusion h
    · next e₁ heq =>
      cases h
      exact nextToken_error _ _ _ heq
    · exact Except.noConfusion (Option.some.inj h)
  · exact Except.noConfusion (Option.some.inj h)

/-- When the lookahead is neither literal kind, `parseFloat` fails without
consuming anything or touching the by-reference slot. -/
theorem parseFloat_none (fuel : Nat) (s : LexState)
    (h1 : s.m_peekToken.m_token ≠ .PT_INTEGER) (h2 : s.m_peekToken.m_token ≠ .PT_FLOAT) :
    parseFloat fuel s = some (.ok (none, s)) := by
  unfold parseFloat
  split
  · next heq => exact absurd heq h2
  · next heq => exact absurd heq h1
  · rfl

theorem parseFloatApply_spec (fuel : Nat) (old : Q) (s : LexState) (v : Q) (b : Bool)
    (s' : LexState) (hInv : Inv s)
    (h : parseFloatApply fuel old s = some (.ok (v, b, s'))) : Inv s' := by
  unfold parseFloatApply at h
  split at h
  · exact Option.noConfusion h
  · exact Except.noConfusion (Option.some.inj h)
  · next s₁ heq =>
    cases h
    exact parseFloat_spec _ _ _ _ hInv heq
  · next v₁ s₁ heq =>
    cases h
    exact parseFloat_spec _ _ _ _ hInv heq

theorem parseFloatApply_error (fuel : Nat) (old : Q) (s : LexState) (e : Fatal)
    (h : parseFloatApply fuel old s = some (.error e)) : e.isLexError = true := by
  unfold parseFloatApply at h
  split at h
  · exact Option.noConfusion h
  · next e₁ heq =>
    cases h
    exact parseFloat_error _ _ _ heq
  · exact Except.noConfusion (Option.some.inj h)
  · exact Except.noConfusion (Option.some.inj h)

/-- When the lookahead is not a literal, a `parseFloat(slot)` call leaves the
slot's old content in place and reports failure with the state untouched. -/
theorem parseFloatApply_none (fuel : Nat) (old : Q) (s : LexState)
    (h1 : s.m_peekToken.m_token ≠ .PT_INTEGER) (h2 : s.m_peekToken.m_token ≠ .PT_FLOAT) :
    parseFloatApply fuel old s = some (.ok (old, false, s)) := by
  unfold parseFloatApply
  rw [parseFloat_none fuel s h1 h2]

theorem parseInteger_spec (fuel : Nat) (s : LexState) (r : Option Nat) (s' : LexState)
    (hInv : Inv s) (h : parseInteger fuel s = some (.ok (r, s'))) : Inv s' := by
  unfold parseInteger at h
  split at h
  · split at h
    · exact Option.noConfusion h
    · exact Except.noConfusion (Option.some.inj h)
    · next tok s₁ heq =>
      cases h
      exact (nextToken_ok _ _ _ _ heq).2
  · cases h
    exact hInv

theorem parseInteger_error (fuel : Nat) (s : LexState) (e : Fatal)
    (h : parseInteger fuel s = some (.error e)) : e.isLexError = true := by
  unfold parseInteger at h
  split at h
  · split at h
    · exact Option.noConfusion h
    · next e₁ heq =>
      cases h
      exact nextToken_error _ _ _ heq
    · exact Except.noConfusion (Option.some.inj h)
  · exact Except.noConfusion (Option.some.inj h)

theorem checkToken_spec (fuel : Nat) (t : ParseToken) (s : LexState) (b : Bool) (s' : LexState)
    (hInv : Inv s) (h : checkToken fuel t s = some (.ok (b, s'))) : Inv s' := by
  unfold checkToken at h
  split at h
  · split at h
    · exact Option.noConfusion h
    · exact Except.noConfusion (Option.some.inj h)
    · next tok s₁ heq =>
      cases h
      exact (nextToken_ok _ _ _ _ heq).2
  · cases h
    exact hInv

theorem checkToken_error (fuel : Nat) (t : ParseToken) (s : LexState) (e : Fatal)
    (h : checkToken fuel t s = some (.error e)) : e.isLexError = true := by
  unfold checkToken at h
  split at h
  · split at h
    · exact Option.noConfusion h
    · next e₁ heq =>
      cases h
      exact nextToken_error _ _ _ heq
    · exact Except.noConfusion (Option.some.inj h)
  · exact Except.noConfusion (Option.some.inj h)

theorem parseFaceSlot_spec (fuel : Nat) (s : LexState) (i : Nat) (s' : LexState)
    (hInv : Inv s) (h : parseFaceSlot fuel s = some (.ok (i, s'))) : Inv s' := by
  unfold parseFaceSlot at h
  split at h
  · exact Option.noConfusion h
  · exact Except.noConfusion (Option.some.inj h)
  · next s₁ heq =>
    have hInv₁ := checkToken_spec _ _ _ _ _ hInv heq
    split at h
    · exact Option.noConfusion h
    · exact Except.noConfusion (Option.some.inj h)
    · next r s₂ heq₂ =>
      cases h
      exact parseInteger_spec _ _ _ _ hInv₁ heq₂
  · next s₁ heq =>
    cases h
    exact checkToken_spec _ _ _ _ _ hInv heq

theorem parseFaceSlot_error (fuel : Nat) (s : LexState) (e : Fatal)
    (h : parseFaceSlot fuel s = some (.error e)) : e.isLexError = true := by
  unfold parseFaceSlot at h
  split at h
  · exact Option.noConfusion h
  · next e₁ heq =>
    cases h
    exact checkToken_error _ _ _ _ heq
  · next s₁ heq =>
    split at h
    · exact Option.noConfusion h
    · next e₁ heq₂ =>
      cases h
      exact parseInteger_error _ _ _ heq₂
    · exact Except.noConfusion (Option.some.inj h)
  · exact Except.noConfusion (Option.some.inj h)

theorem parseFaceIndices_spec (fuel : Nat) (s : LexState) (r : Option (Nat × Nat × Nat))
    (s' : LexState) (hInv : Inv s)
    (h : parseFaceIndices fuel s = some (.ok (r, s'))) : Inv s' := by
  unfold parseFaceIndices at h
  split at h
  · exact Option.noConfusion h
  · exact Except.noConfusion (Option.some.inj h)
  · next s₁ heq =>
    cases h
    exact parseInteger_spec _ _ _ _ hInv heq
  · next i0 s₁ heq =>
    have hInv₁ := parseInteger_spec _ _ _ _ hInv heq
    split at h
    · exact Option.noConfusion h
    · exact Except.noConfusion (Option.some.inj h)
    · next i1 s₃ heq₂ =>
      have hInv₂ := parseFaceSlot_spec _ _ _ _ hInv₁ heq₂
      split at h
      · exact Option.noConfusion h
      · exact Except.noConfusion (Option.some.inj h)
      · next i2 s₅ heq₃ =>
        cases h
        exact parseFaceSlot_spec _ _ _ _ hInv₂ heq₃

theorem parseFaceIndices_error (fuel : Nat) (s : LexState) (e : Fatal) (hInv : Inv s)
    (h : parseFaceIndices fuel s = some (.error e)) : e.isLexError = true := by
  unfold parseFaceIndices at h
  split at h
  · exact Option.noConfusion h
  · next e₁ heq =>
    cases h
    exact parseInteger_error _ _ _ heq
  · exact Except.noConfusion (Option.some.inj h)
  · next i0 s₁ heq =>
    have hInv₁ := parseInteger_spec _ _ _ _ hInv heq
    split at h
    · exact Option.noConfusion h
    · next e₁ heq₂ =>
      cases h
      exact parseFaceSlot_error _ _ _ heq₂
    · next i1 s₃ heq₂ =>
      have hInv₂ := parseFaceSlot_spec _ _ _ _ hInv₁ heq₂
      split at h
      · exact Option.noConfusion h
      · next e₁ heq₃ =>
        cases h
        exact parseFaceSlot_error _ _ _ heq₃
      · exact Except.noConfusion (Option.some.inj h)

theorem parseFaceLoop_spec :
    ∀ fuel s r, Inv s → parseFaceLoop fuel s = some r →
      (∀ e, r = .error e → e.isLexError = true) ∧
      (∀ g s', r = .ok (g, s') → Inv s') := by
  intro fuel
  induction fuel with
  | zero => intro s r _ h; exact Option.noConfusion h
  | succ n ih =>
    intro s r hInv h
    simp only [parseFaceLoop] at h
    split at h
    · exact Option.noConfusion h
    · next e₁ heq =>
      cases h
      refine ⟨fun e he => ?_, fun g s' hg => Except.noConfusion hg⟩
      cases he
      exact parseFaceIndices_error _ _ _ hInv heq
    · next s₁ heq =>
      cases h
      refine ⟨fun e he => Except.noConfusion he, fun g s' hg => ?_⟩
      cases hg
      exact parseFaceIndices_spec _ _ _ _ hInv heq
    · next tri s₁ heq =>
      have hInv₁ := parseFaceIndices_spec _ _ _ _ hInv heq
      split at h
      · exact Option.noConfusion h
      · next e₁ heq₂ =>
        cases h
        refine ⟨fun e he => ?_, fun g s' hg => Except.noConfusion hg⟩
        cases he
        exact ((ih _ _ hInv₁ heq₂).1 _ rfl)
      · next rest s₂ heq₂ =>
        cases h
        refine ⟨fun e he => Except.noConfusion he, fun g s' hg => ?_⟩
        cases hg
        exact (ih _ _ hInv₁ heq₂).2 _ _ rfl

/-! ### Helper lemmas: the statement rules emit exactly one event each -/

theorem parseVertex_ok (fuel : Nat) (ps ps' : PState) (hInv : Inv ps.lex)
    (h : parseVertex fuel ps = some (.ok ps')) :
    Inv ps'.lex ∧
    ps'.stats = { ps.stats with m_vertexCount := ps.stats.m_vertexCount + 1 } ∧
    ∃ x y z w, ps'.events = ps.events ++ [Event.onVertex x y z w] := by
  unfold parseVertex at h
  split at h
  · exact Option.noConfusion h
  · exact Except.noConfusion (Option.some.inj h)
  · next v0 b0 s1 heq1 =>
    have hI1 := parseFloatApply_spec _ _ _ _ _ _ hInv heq1
    split at h
    · exact Option.noConfusion h
    · exact Except.noConfusion (Option.some.inj h)
    · next v1 b1 s2 heq2 =>
      have hI2 := parseFloatApply_spec _ _ _ _ _ _ hI1 heq2
      split at h
      · exact Option.noConfusion h
      · exact Except.noConfusion (Option.some.inj h)
      · next v2 b2 s3 heq3 =>
        have hI3 := parseFloatApply_spec _ _ _ _ _ _ hI2 heq3
        split at h
        · exact Option.noConfusion h
        · exact Except.noConfusion (Option.some.inj h)
        · next v3 ok3 s4 heq4 =>
          have hI4 := parseFloatApply_spec _ _ _ _ _ _ hI3 heq4
          cases h
          exact ⟨hI4, rfl, _, _, _, _, rfl⟩

theorem parseVertex_error (fuel : Nat) (ps : PState) (e : Fatal)
    (h : parseVertex fuel ps = some (.error e)) : e.isLexError = true := by
  unfold parseVertex at h
  split at h
  · exact Option.noConfusion h
  · next e₁ heq =>
    cases h
    exact parseFloatApply_error _ _ _ _ heq
  · split at h
    · exact Option.noConfusion h
    · next e₁ heq =>
      cases h
      exact parseFloatApply_error _ _ _ _ heq
    · split at h
      · exact Option.noConfusion h
      · next e₁ heq =>
        cases h
        exact parseFloatApply_error _ _ _ _ heq
      · split at h
        · exact Option.noConfusion h
        · next e₁ heq =>
          cases h
          exact parseFloatApply_error _ _ _ _ heq
        · exact Except.noConfusion (Option.some.inj h)

theorem parseTexture_ok (fuel : Nat) (ps ps' : PState) (hInv : Inv ps.lex)
    (h : parseTexture fuel ps = some (.ok ps')) :
    Inv ps'.lex ∧
    ps'.stats = { ps.stats with m_textureCount := ps.stats.m_textureCount + 1 } ∧
    ∃ u v w, ps'.events = ps.events ++ [Event.onTexture u v w] := by
  unfold parseTexture at h
  split at h
  · exact Option.noConfusion h
  · exact Except.noConfusion (Option.some.inj h)
  · next v0 b0 s1 heq1 =>
    have hI1 := parseFloatApply_spec _ _ _ _ _ _ hInv heq1
    split at h
    · exact Option.noConfusion h
    · exact Except.noConfusion (Option.some.inj h)
    · next v1 b1 s2 heq2 =>
      have hI2 := parseFloatApply_spec _ _ _ _ _ _ hI1 heq2
      split at h
      · exact Option.noConfusion h
      · exact Except.noConfusion (Option.some.inj h)
      · next v2 ok2 s3 heq3 =>
        have hI3 := parseFloatApply_spec _ _ _ _ _ _ hI2 heq3
        cases h
        exact ⟨hI3, rfl, _, _, _, rfl⟩

theorem parseTexture_error (fuel : Nat) (ps : PState) (e : Fatal)
    (h : parseTexture fuel ps = some (.error e)) : e.isLexError = true := by
  unfold parseTexture at h
  split at h
  · exact Option.noConfusion h
  · next e₁ heq =>
    cases h
    exact parseFloatApply_error _ _ _ _ heq
  · split at h
    · exact Option.noConfusion h
    · next e₁ heq =>
      cases h
      exact parseFloatApply_error _ _ _ _ heq
    · split at h
      · exact Option.noConfusion h
      · next e₁ heq =>
        cases h
        exact parseFloatApply_error _ _ _ _ heq
      · exact Except.noConfusion (Option.some.inj h)

theorem parseNormal_ok (fuel : Nat) (ps ps' : PState) (hInv : Inv ps.lex)
    (h : parseNormal fuel ps = some (.ok ps')) :
    Inv ps'.lex ∧
    ps'.stats = { ps.stats with m_normalCount := ps.stats.m_normalCount + 1 } ∧
    ∃ x y z, ps'.events = ps.events ++ [Event.onNormal x y z] := by
  unfold parseNormal at h
  split at h
  · exact Option.noConfusion h
  · exact Except.noConfusion (Option.some.inj h)
  · next v0 b0 s1 heq1 =>
    have hI1 := parseFloatApply_spec _ _ _ _ _ _ hInv heq1
    split at h
    · exact Option.noConfusion h
    · exact Except.noConfusion (Option.some.inj h)
    · next v1 b1 s2 heq2 =>
      have hI2 := parseFloatApply_spec _ _ _ _ _ _ hI1 heq2
      split at h
      · exact Option.noConfusion h
      · exact Except.noConfusion (Option.some.inj h)
      · next v2 b2 s3 heq3 =>
        have hI3 := parseFloatApply_spec _ _ _ _ _ _ hI2 heq3
        cases h
        exact ⟨hI3, rfl, _, _, _, rfl⟩

theorem parseNormal_error (fuel : Nat) (ps : PState) (e : Fatal)
    (h : parseNormal fuel ps = some (.error e)) : e.isLexError = true := by
  unfold parseNormal at h
  split at h
  · exact Option.noConfusion h
  · next e₁ heq =>
    cases h
    exact parseFloatApply_error _ _ _ _ heq
  · split at h
    · exact Option.noConfusion h
    · next e₁ heq =>
      cases h
      exact parseFloatApply_error _ _ _ _ heq
    · split at h
      · exact Option.noConfusion h
      · next e₁ heq =>
        cases h
        exact parseFloatApply_error _ _ _ _ heq
      · exact Except.noConfusion (Option.some.inj h)

theorem parseParameter_ok (fuel : Nat) (ps ps' : PState) (hInv : Inv ps.lex)
    (h : parseParameter fuel ps = some (.ok ps')) :
    Inv ps'.lex ∧
    ps'.stats = { ps.stats with m_parameterCount := ps.stats.m_parameterCount + 1 } ∧
    ∃ u v w, ps'.events = ps.events ++ [Event.onParameter u v w] := by
  unfold parseParameter at h
  split at h
  · exact Option.noConfusion h
  · exact Except.noConfusion (Option.some.inj h)
  · next v0 b0 s1 heq1 =>
    have hI1 := parseFloatApply_spec _ _ _ _ _ _ hInv heq1
    split at h
    · exact Option.noConfusion h
    · exact Except.noConfusion (Option.some.inj h)
    · next v1 ok1 s2 heq2 =>
      have hI2 := parseFloatApply_spec _ _ _ _ _ _ hI1 heq2
      split at h
      · split at h
        · exact Option.noConfusion h
        · exact Except.noConfusion (Option.some.inj h)
        · next v2 ok2 s3 heq3 =>
          have hI3 := parseFloatApply_spec _ _ _ _ _ _ hI2 heq3
          cases h
          exact ⟨hI3, rfl, _, _, _, rfl⟩
      · cases h
        exact ⟨hI2, rfl, _, _, _, rfl⟩

theorem parseParameter_error (fuel : Nat) (ps : PState) (e : Fatal)
    (h : parseParameter fuel ps = some (.error e)) : e.isLexError = true := by
  unfold parseParameter at h
  split at h
  · exact Option.noConfusion h
  · next e₁ heq =>
    cases h
    exact parseFloatApply_error _ _ _ _ heq
  · split at h
    · exact Option.noConfusion h
    · next e₁ heq =>
      cases h
      exact parseFloatApply_error _ _ _ _ heq
    · split at h
      · split at h
        · exact Option.noConfusion h
        · next e₁ heq =>
          cases h
          exact parseFloatApply_error _ _ _ _ heq
        · exact Except.noConfusion (Option.some.inj h)
      · exact Except.noConfusion (Option.some.inj h)

theorem parseFace_ok (fuel : Nat) (ps ps' : PState) (hInv : Inv ps.lex)
    (h : parseFace fuel ps = some (.ok ps')) :
    Inv ps'.lex ∧
    ps'.stats = ps.stats ∧
    ∃ groups, ps'.events = ps.events ++ [Event.onFace (groups ++ [(0, 0, 0)]) groups.length] := by
  unfold parseFace at h
  split at h
  · exact Option.noConfusion h
  · exact Except.noConfusion (Option.some.inj h)
  · next groups s₁ heq =>
    cases h
    refine ⟨(parseFaceLoop_spec _ _ _ hInv heq).2 _ _ rfl, rfl, groups, ?_⟩
    have hlen : (groups ++ [((0 : Nat), (0 : Nat), (0 : Nat))]).length - 1 = groups.length := by
      simp
    rw [hlen]

theorem parseFace_error (fuel : Nat) (ps : PState) (e : Fatal) (hInv : Inv ps.lex)
    (h : parseFace fuel ps = some (.error e)) : e.isLexError = true := by
  unfold parseFace at h
  split at h
  · exact Option.noConfusion h
  · next e₁ heq =>
    cases h
    exact (parseFaceLoop_spec _ _ _ hInv heq).1 _ rfl
  · exact Except.noConfusion (Option.some.inj h)

/-! ### Helper lemmas: statistics bookkeeping along the dispatch loop -/

theorem countEv_append (p : Event → Bool) (a b : List Event) :
    countEv p (a ++ b) = countEv p a + countEv p b := by
  simp [countEv, List.filter_append]

theorem statsRel_same (a b : PState) (he : b.events = a.events) (hs : b.stats = a.stats) :
    StatsRel a b := by
  refine ⟨[], by simp [he], ?_, ?_, ?_, ?_, ?_⟩ <;> simp [hs, countEv]

theorem statsRel_trans (a b c : PState) (h₁ : StatsRel a b) (h₂ : StatsRel b c) :
    StatsRel a c := by
  obtain ⟨n₁, he₁, hv₁, ht₁, hn₁, hp₁, hf₁⟩ := h₁
  obtain ⟨n₂, he₂, hv₂, ht₂, hn₂, hp₂, hf₂⟩ := h₂
  refine ⟨n₁ ++ n₂, by rw [he₂, he₁, List.append_assoc], ?_, ?_, ?_, ?_, ?_⟩ <;>
    simp [countEv_append, hv₂, hv₁, ht₂, ht₁, hn₂, hn₁, hp₂, hp₁, hf₂, hf₁] <;> omega

theorem statsRel_vertex (a b : PState) (x y z w : Q)
    (he : b.events = a.events ++ [Event.onVertex x y z w])
    (hs : b.stats = { a.stats with m_vertexCount := a.stats.m_vertexCount + 1 }) :
    StatsRel a b := by
  refine ⟨[Event.onVertex x y z w], he, ?_, ?_, ?_, ?_, ?_⟩ <;>
    simp [hs, countEv, isVertexEv, isTextureEv, isNormalEv, isParameterEv, isFaceEv,
      List.filter]

theorem statsRel_texture (a b : PState) (u v w : Q)
    (he : b.events = a.events ++ [Event.onTexture u v w])
    (hs : b.stats = { a.stats with m_textureCount := a.stats.m_textureCount + 1 }) :
    StatsRel a b := by
  refine ⟨[Event.onTexture u v w], he, ?_, ?_, ?_, ?_, ?_⟩ <;>
    simp [hs, countEv, isVertexEv, isTextureEv, isNormalEv, isParameterEv, isFaceEv,
      List.filter]

theorem statsRel_normal (a b : PState) (x y z : Q)
    (he : b.events = a.events ++ [Event.onNormal x y z])
    (hs : b.stats = { a.stats with m_normalCount := a.stats.m_normalCount + 1 }) :
    StatsRel a b := by
  refine ⟨[Event.onNormal x y z], he, ?_, ?_, ?_, ?_, ?_⟩ <;>
    simp [hs, countEv, isVertexEv, isTextureEv, isNormalEv, isParameterEv, isFaceEv,
      List.filter]

theorem statsRel_parameter (a b : PState) (u v w : Q)
    (he : b.events = a.events ++ [Event.onParameter u v w])
    (hs : b.stats = { a.stats with m_parameterCount := a.stats.m_parameterCount + 1 }) :
    StatsRel a b := by
  refine ⟨[Event.onParameter u v w], he, ?_, ?_, ?_, ?_, ?_⟩ <;>
    simp [hs, countEv, isVertexEv, isTextureEv, isNormalEv, isParameterEv, isFaceEv,
      List.filter]

theorem statsRel_face (a b : PState) (buf : List (Nat × Nat × Nat)) (n : Nat)
    (he : b.events = a.events ++ [Event.onFace buf n])
    (hs : b.stats = a.stats) :
    StatsRel a b := by
  refine ⟨[Event.onFace buf n], he, ?_, ?_, ?_, ?_, ?_⟩ <;>
    simp [hs, countEv, isVertexEv, isTextureEv, isNormalEv, isParameterEv, isFaceEv,
      List.filter]

/-- The master invariant of the dispatch loop: a finished loop (from a state
whose lookahead token is well-formed) either aborted with a lexical error, or
returned `true` with the statistics counters having tracked the newly emitted
events (and the face counter untouched). -/
theorem parseLoop_good :
    ∀ fuel ps r, Inv ps.lex → parseLoop fuel ps = some r →
      (∀ e, r = .error e → e.isLexError = true) ∧
      (∀ b ps', r = .ok (b, ps') → b = true ∧ StatsRel ps ps') := by
  intro fuel
  induction fuel with
  | zero => intro ps r _ h; exact Option.noConfusion h
  | succ n ih =>
    intro ps r hInv h
    simp only [parseLoop] at h
    split at h
    · exact Option.noConfusion h
    · next e₁ heq =>
      cases h
      refine ⟨fun e he => ?_, fun b ps' hb => Except.noConfusion hb⟩
      cases he
      exact nextToken_error _ _ _ heq
    · next tok s₁ heq =>
      have hpk := nextToken_ok _ _ _ _ heq
      split at h
      · next htok =>
        rw [hpk.1] at htok
        exact absurd htok hInv
      · cases h
        refine ⟨fun e he => Except.noConfusion he, fun b ps' hb => ?_⟩
        cases hb
        exact ⟨rfl, statsRel_same _ _ rfl rfl⟩
      · split at h
        · exact Option.noConfusion h
        · next e₁ heq₂ =>
          cases h
          refine ⟨fun e he => ?_, fun b ps' hb => Except.noConfusion hb⟩
          cases he
          exact parseVertex_error _ _ _ heq₂
        · next ps₂ heq₂ =>
          have hx := parseVertex_ok _ _ _ hpk.2 heq₂
          have hih := ih _ _ hx.1 h
          refine ⟨hih.1, fun b ps' hb => ?_⟩
          obtain ⟨x, y, z, w, hev⟩ := hx.2.2
          exact ⟨(hih.2 b ps' hb).1,
            statsRel_trans _ _ _ (statsRel_vertex _ _ x y z w hev hx.2.1) ((hih.2 b ps' hb).2)⟩
      · split at h
        · exact Option.noConfusion h
        · next e₁ heq₂ =>
          cases h
          refine ⟨fun e he => ?_, fun b ps' hb => Except.noConfusion hb⟩
          cases he
          exact parseTexture_error _ _ _ heq₂
        · next ps₂ heq₂ =>
          have hx := parseTexture_ok _ _ _ hpk.2 heq₂
          have hih := ih _ _ hx.1 h
          refine ⟨hih.1, fun b ps' hb => ?_⟩
          obtain ⟨u, v, w, hev⟩ := hx.2.2
          exact ⟨(hih.2 b ps' hb).1,
            statsRel_trans _ _ _ (statsRel_texture _ _ u v w hev hx.2.1) ((hih.2 b ps' hb).2)⟩
      · split at h
        · exact Option.noConfusion h
        · next e₁ heq₂ =>
          cases h
          refine ⟨fun e he => ?_, fun b ps' hb => Except.noConfusion hb⟩
          cases he
          exact parseNormal_error _ _ _ heq₂
        · next ps₂ heq₂ =>
          have hx := parseNormal_ok _ _ _ hpk.2 heq₂
          have hih := ih _ _ hx.1 h
          refine ⟨hih.1, fun b ps' hb => ?_⟩
          obtain ⟨x, y, z, hev⟩ := hx.2.2
          exact ⟨(hih.2 b ps' hb).1,
            statsRel_trans _ _ _ (statsRel_normal _ _ x y z hev hx.2.1) ((hih.2 b ps' hb).2)⟩
      · split at h
        · exact Option.noConfusion h
        · next e₁ heq₂ =>
          cases h
          refine ⟨fun e he => ?_, fun b ps' hb => Except.noConfusion hb⟩
          cases he
          exact parseParameter_error _ _ _ heq₂
        · next ps₂ heq₂ =>
          have hx := parseParameter_ok _ _ _ hpk.2 heq₂
          have hih := ih _ _ hx.1 h
          refine ⟨hih.1, fun b ps' hb => ?_⟩
          obtain ⟨u, v, w, hev⟩ := hx.2.2
          exact ⟨(hih.2 b ps' hb).1,
            statsRel_trans _ _ _ (statsRel_parameter _ _ u v w hev hx.2.1) ((hih.2 b ps' hb).2)⟩
      · split at h
        · exact Option.noConfusion h
        · next e₁ heq₂ =>
          cases h
          refine ⟨fun e he => ?_, fun b ps' hb => Except.noConfusion hb⟩
          cases he
          exact parseFace_error _ _ _ hpk.2 heq₂
        · next ps₂ heq₂ =>
          have hx := parseFace_ok _ _ _ hpk.2 heq₂
          have hih := ih _ _ hx.1 h
          refine ⟨hih.1, fun b ps' hb => ?_⟩
          obtain ⟨groups, hev⟩ := hx.2.2
          exact ⟨(hih.2 b ps' hb).1,
            statsRel_trans _ _ _ (statsRel_face _ _ _ _ hev hx.2.1) ((hih.2 b ps' hb).2)⟩
      · have hih := ih _ _ hpk.2 h
        exact ⟨hih.1, fun b ps' hb => ⟨(hih.2 b ps' hb).1,
          statsRel_trans _ _ _ (statsRel_same _ _ rfl rfl) ((hih.2 b ps' hb).2)⟩⟩

theorem initPState_ok (fuel : Nat) (input : List Char) (scratch : Q × Q × Q × Q) (ps : PState)
    (h : initPState fuel input scratch = some (.ok ps)) :
    Inv ps.lex ∧ ps.events = [] ∧ ps.stats = ⟨0, 0, 0, 0, 0⟩ := by
  unfold initPState at h
  split at h
  · exact Option.noConfusion h
  · exact Except.noConfusion (Option.some.inj h)
  · next t s₁ heq =>
    cases h
    exact ⟨(nextToken_ok _ _ _ _ heq).2, rfl, rfl⟩

theorem initPState_error (fuel : Nat) (input : List Char) (scratch : Q × Q × Q × Q) (e : Fatal)
    (h : initPState fuel input scratch = some (.error e)) : e.isLexError = true := by
  unfold initPState at h
  split at h
  · exact Option.noConfusion h
  · next e₁ heq =>
    cases h
    exact nextToken_error _ _ _ heq
  · exact Except.noConfusion (Option.some.inj h)

theorem runParse_ok (fuel : Nat) (input : List Char) (scratch : Q × Q × Q × Q) (b : Bool)
    (ps : PState) (h : runParse fuel input scratch = some (.ok (b, ps))) :
    b = true ∧
    ps.stats.m_vertexCount = countEv isVertexEv ps.events ∧
    ps.stats.m_textureCount = countEv isTextureEv ps.events ∧
    ps.stats.m_normalCount = countEv isNormalEv ps.events ∧
    ps.stats.m_parameterCount = countEv isParameterEv ps.events ∧
    ps.stats.m_faceCount = 0 := by
  unfold runParse at h
  split at h
  · exact Option.noConfusion h
  · exact Except.noConfusion (Option.some.inj h)
  · next ps₀ heq =>
    have hi := initPState_ok _ _ _ _ heq
    have hg := (parseLoop_good _ _ _ hi.1 h).2 b ps rfl
    obtain ⟨new, he, hv, ht, hn, hp, hf⟩ := hg.2
    refine ⟨hg.1, ?_, ?_, ?_, ?_, ?_⟩
    · rw [hv, he, hi.2.1, hi.2.2]; simp [countEv]
    · rw [ht, he, hi.2.1, hi.2.2]; simp [countEv]
    · rw [hn, he, hi.2.1, hi.2.2]; simp [countEv]
    · rw [hp, he, hi.2.1, hi.2.2]; simp [countEv]
    · rw [hf, hi.2.2]

/-! ### The claims -/

/-- C1: the claim says every directive line (`g`, `o`, `s`, `mtllib`,
`usemtl`) produces no geometry event and has its trailing content discarded by
the deferred line-skip.  The source's skip switch in `lexToken` omits
`PT_USEMATERIAL`, so the trailing content of a use-material line is lexed and
parsed as ordinary statements: on input `"usemtl f 1 2\n"` the trailing text
is parsed as a face statement and an `onFace` geometry event is emitted. -/
theorem C1_usemtl_trailing_parsed :
    eventsOf (runParse 300 ("usemtl f 1 2\n".data) z4) =
      some (.ok [Event.onFace [(1, 0, 0), (2, 0, 0), (0, 0, 0)] 2]) := by decide

/-- C2: a face statement's index-triple sequence as delivered to `onFace` has
exactly one triple per decoded group and the count transmitted equals that
number; omitted texture/normal slots decode to the sentinel `0`.  Concretely,
`"f 1/2/3 4//5 6\n"` produces one `onFace` whose first `count = 3` triples are
`(1,2,3), (4,0,5), (6,0,0)`; in general every successful `parseFace` emits one
`onFace` whose buffer is the decoded groups plus one trailing scratch entry
and whose count is exactly the number of decoded groups. -/
theorem C2_face_triples :
    (eventsOf (runParse 300 ("f 1/2/3 4//5 6\n".data) z4) =
        some (.ok [Event.onFace [(1, 2, 3), (4, 0, 5), (6, 0, 0), (0, 0, 0)] 3]) ∧
      [((1 : Nat), (2 : Nat), (3 : Nat)), (4, 0, 5), (6, 0, 0), (0, 0, 0)].take 3 =
        [(1, 2, 3), (4, 0, 5), (6, 0, 0)]) ∧
    ∀ fuel ps ps', Inv ps.lex → parseFace fuel ps = some (.ok ps') →
      ∃ groups,
        ps'.events = ps.events ++ [Event.onFace (groups ++ [(0, 0, 0)]) groups.length] ∧
        (groups ++ [(0, 0, 0)]).take groups.length = groups := by
  refine ⟨⟨by decide, by decide⟩, ?_⟩
  intro fuel ps ps' hInv h
  obtain ⟨groups, hev⟩ := (parseFace_ok fuel ps ps' hInv h).2.2
  exact ⟨groups, hev, by simp⟩

/-- C2 witness: the general face lemma applied to an explicit parser state
holding the lookahead `1` followed by a newline. -/
theorem C2_face_triples_witness :
    ∃ ps', parseFace 50 psFaceDemo = some (.ok ps') ∧
      ∃ groups,
        ps'.events = psFaceDemo.events ++ [Event.onFace (groups ++ [(0, 0, 0)]) groups.length] ∧
        (groups ++ [(0, 0, 0)]).take groups.length = groups :=
  ⟨_, rfl, C2_face_triples.2 50 psFaceDemo _ (by decide) rfl⟩

/-- C3: the claim says a fractional literal's leading sign is applied once to
the combined magnitude, so `-0.5` lexes to a negative value.  In the source,
`lexToken` dispatches `'-'` to neither numeric nor identifier lexing (the sign
handling inside `lexReadInteger` is reachable only after `'.'` or `'e'`), so a
literal beginning with `'-'` aborts with the fatal unexpected-character
lexical error instead. -/
theorem C3_negative_literal_fatal :
    tokensOf (tokenize 200 ("-0.5".data)) = some (.error (.lexError 1 1 '-')) := by decide

/-- C4 counterexample: the claim says an `e`/`E` suffix is honoured in integer
mode, so `"1e5"` lexes as a single float-literal token of value 100000.  The
source's `lexTokenInteger` checks only for `'.'`, so `"1e5"` lexes as three
tokens: integer-literal 1, identifier `e`, integer-literal 5. -/
theorem C4_integer_exponent_counterexample :
    tokensOf (tokenize 200 ("1e5".data)) =
      some (.ok [(.PT_INTEGER, 1, ⟨0, 1⟩), (.PT_STRING, 0, ⟨0, 1⟩), (.PT_INTEGER, 5, ⟨0, 1⟩)]) ∧
    (tokenize 200 ("1e5".data)).map (Except.map List.length) = some (.ok 3) := by
  constructor <;> decide

/-- C4 amended: the exponent suffix is recognized only in fractional mode
(after a decimal point); there the lexer reads a signed exponent integer and
multiplies the accumulated value by ten to that exponent, and the resulting
token kind is float-literal exactly when a decimal point was seen.  Concretely
`"1.0e5"` is one float-literal of value 100000 and `"3.0e-2"` one
float-literal of value 3/100, while `lexTokenFloatExponent` always returns a
float token whose value is the incoming value times ten to the exponent just
read. -/
theorem C4_exponent_only_after_decimal_point :
    (tokensOf (tokenize 200 ("1.0e5".data)) = some (.ok [(.PT_FLOAT, 0, ⟨100000, 1⟩)])) ∧
    (tokensOf (tokenize 200 ("3.0e-2".data)) = some (.ok [(.PT_FLOAT, 0, ⟨3, 100⟩)])) ∧
    ∀ fuel tok v s p s₁, lexReadInteger fuel s = some (p, s₁) →
      lexTokenFloatExponent fuel tok v s =
        some (.PT_FLOAT, { tok with attribFloat := qMul v (powTen p) }, s₁) := by
  refine ⟨by decide, by decide, ?_⟩
  intro fuel tok v s p s₁ h
  unfold lexTokenFloatExponent
  rw [h]

/-- C4 witness: the exponent lemma applied to an explicit lexer state whose
current character is the digit 5. -/
theorem C4_exponent_witness :
    lexTokenFloatExponent 10 initToken ⟨1, 1⟩ sExpDemo =
      some (.PT_FLOAT, { initToken with attribFloat := qMul ⟨1, 1⟩ (powTen 5) }, sExpDemo) :=
  C4_exponent_only_after_decimal_point.2.2 10 initToken ⟨1, 1⟩ sExpDemo 5 sExpDemo (by decide)

/-- C5 counterexample: the claim says that when a parameter statement's second
field is absent the third component delivered to `onParameter` is 0, never a
stale value.  After `"v 1 2 3 4"` filled the scratch buffer, `"vp 7"`
delivers `onParameter(7, 0, 3)`: the third component is the stale 3 left by
the vertex statement, not 0. -/
theorem C5_stale_third_counterexample :
    eventsOf (runParse 400 ("v 1 2 3 4\nvp 7\n".data) z4) =
      some (.ok [Event.onVertex ⟨1, 1⟩ ⟨2, 1⟩ ⟨3, 1⟩ ⟨4, 1⟩,
                 Event.onParameter ⟨7, 1⟩ ⟨0, 1⟩ ⟨3, 1⟩]) ∧
    (⟨3, 1⟩ : Q) ≠ (⟨0, 1⟩ : Q) := by
  constructor <;> decide

/-- C5 amended: when the second parameter field is absent, the second
component is defaulted to 0 but the third scratch slot is never attempted and
never written: `onParameter` receives whatever the slot held before the
statement (stale content from earlier statements). -/
theorem C5_parameter_second_absent_third_stale :
    ∀ fuel ps v0 b0 s1 v1 s2,
      parseFloatApply fuel ps.m_float4.1 ps.lex = some (.ok (v0, b0, s1)) →
      parseFloatApply fuel ps.m_float4.2.1 s1 = some (.ok (v1, false, s2)) →
      parseParameter fuel ps = some (.ok { ps with
        lex := s2
        stats := { ps.stats with m_parameterCount := ps.stats.m_parameterCount + 1 }
        m_float4 := (v0, qOfInt 0, ps.m_float4.2.2.1, ps.m_float4.2.2.2)
        events := ps.events ++ [Event.onParameter v0 (qOfInt 0) ps.m_float4.2.2.1] }) := by
  intro fuel ps v0 b0 s1 v1 s2 h1 h2
  simp only [parseParameter]
  rw [h1]
  dsimp only
  rw [h2]
  rfl

/-- C5 witness: the stale-third lemma applied to an explicit parser state with
scratch buffer `(9, 8, 7, 6)` and an end-statement lookahead: the delivered
third component is the stale 7. -/
theorem C5_parameter_witness :
    parseParameter 50 psEmptyStmtDemo = some (.ok { psEmptyStmtDemo with
      lex := psEmptyStmtDemo.lex
      stats := { psEmptyStmtDemo.stats with
        m_parameterCount := psEmptyStmtDemo.stats.m_parameterCount + 1 }
      m_float4 := (⟨9, 1⟩, qOfInt 0, psEmptyStmtDemo.m_float4.2.2.1,
        psEmptyStmtDemo.m_float4.2.2.2)
      events := psEmptyStmtDemo.events ++
        [Event.onParameter ⟨9, 1⟩ (qOfInt 0) psEmptyStmtDemo.m_float4.2.2.1] }) :=
  C5_parameter_second_absent_third_stale 50 psEmptyStmtDemo ⟨9, 1⟩ false
    psEmptyStmtDemo.lex ⟨8, 1⟩ psEmptyStmtDemo.lex (by decide) (by decide)

/-- C6 counterexample: the claim says the face counter equals the number of
face statements parsed so far.  Parsing `"f 1 2 3\n"` emits one `onFace`
event, yet the face counter remains 0: the source never increments
`m_faceCount`. -/
theorem C6_face_counter_counterexample :
    (runParse 300 ("f 1 2 3\n".data) z4).map (Except.map (fun p =>
        (p.2.stats.m_faceCount, countEv isFaceEv p.2.events))) = some (.ok (0, 1)) ∧
    (0 : Nat) ≠ 1 := by
  constructor <;> decide

/-- C6 amended: throughout every parse the vertex/texture/normal/parameter
counters equal the number of statements (equivalently Sink events) of their
kind parsed so far and never decrease, but the face counter is never
incremented: across any stretch of the dispatch loop it is unchanged, and at
the end of any successful parse it is still 0 regardless of how many face
statements were parsed. -/
theorem C6_counters_track_events :
    (∀ fuel ps r, Inv ps.lex → parseLoop fuel ps = some (.ok r) → StatsRel ps r.2) ∧
    (∀ fuel input scratch b ps, runParse fuel input scratch = some (.ok (b, ps)) →
      ps.stats.m_vertexCount = countEv isVertexEv ps.events ∧
      ps.stats.m_textureCount = countEv isTextureEv ps.events ∧
      ps.stats.m_normalCount = countEv isNormalEv ps.events ∧
      ps.stats.m_parameterCount = countEv isParameterEv ps.events ∧
      ps.stats.m_faceCount = 0) := by
  constructor
  · intro fuel ps r hInv h
    exact ((parseLoop_good fuel ps _ hInv h).2 r.1 r.2 rfl).2
  · intro fuel input scratch b ps h
    exact (runParse_ok fuel input scratch b ps h).2

/-- C6 witness: the final-state counter equations applied to the concrete run
of `"f 1 2 3\n"`. -/
theorem C6_counters_witness :
    ∃ b ps, runParse 300 ("f 1 2 3\n".data) z4 = some (.ok (b, ps)) ∧
      ps.stats.m_faceCount = 0 ∧
      ps.stats.m_vertexCount = countEv isVertexEv ps.events := by
  obtain ⟨b, ps, hb⟩ : ∃ b ps, runParse 300 ("f 1 2 3\n".data) z4 = some (.ok (b, ps)) :=
    ⟨_, _, rfl⟩
  exact ⟨b, ps, hb, (C6_counters_track_events.2 300 _ z4 _ _ hb).2.2.2.2,
    (C6_counters_track_events.2 300 _ z4 _ _ hb).1⟩

/-- C7: on every input on which no fatal error occurs (and enough fuel to
finish), `parse()` returns true; and each recognized geometry statement rule
delivers exactly one Sink callback, appended to the trace in statement order
(the trace is extended by exactly one event of the statement's kind). -/
theorem C7_parse_true_one_event_per_statement :
    (∀ fuel input scratch b ps, runParse fuel input scratch = some (.ok (b, ps)) → b = true) ∧
    (∀ fuel ps ps', Inv ps.lex → parseVertex fuel ps = some (.ok ps') →
      ∃ x y z w, ps'.events = ps.events ++ [Event.onVertex x y z w]) ∧
    (∀ fuel ps ps', Inv ps.lex → parseTexture fuel ps = some (.ok ps') →
      ∃ u v w, ps'.events = ps.events ++ [Event.onTexture u v w]) ∧
    (∀ fuel ps ps', Inv ps.lex → parseNormal fuel ps = some (.ok ps') →
      ∃ x y z, ps'.events = ps.events ++ [Event.onNormal x y z]) ∧
    (∀ fuel ps ps', Inv ps.lex → parseParameter fuel ps = some (.ok ps') →
      ∃ u v w, ps'.events = ps.events ++ [Event.onParameter u v w]) ∧
    (∀ fuel ps ps', Inv ps.lex → parseFace fuel ps = some (.ok ps') →
      ∃ buf n, ps'.events = ps.events ++ [Event.onFace buf n]) := by
  refine ⟨fun fuel input scratch b ps h => (runParse_ok fuel input scratch b ps h).1,
    ?_, ?_, ?_, ?_, ?_⟩
  · intro fuel ps ps' hInv h
    exact (parseVertex_ok fuel ps ps' hInv h).2.2
  · intro fuel ps ps' hInv h
    exact (parseTexture_ok fuel ps ps' hInv h).2.2
  · intro fuel ps ps' hInv h
    exact (parseNormal_ok fuel ps ps' hInv h).2.2
  · intro fuel ps ps' hInv h
    exact (parseParameter_ok fuel ps ps' hInv h).2.2
  · intro fuel ps ps' hInv h
    obtain ⟨groups, hev⟩ := (parseFace_ok fuel ps ps' hInv h).2.2
    exact ⟨_, _, hev⟩

/-- C7 witness: a successful concrete run returning true. -/
theorem C7_parse_true_witness :
    ∃ b ps, runParse 300 ("v 1 2 3\n".data) z4 = some (.ok (b, ps)) ∧ b = true := by
  obtain ⟨b, ps, hb⟩ : ∃ b ps, runParse 300 ("v 1 2 3\n".data) z4 = some (.ok (b, ps)) :=
    ⟨_, _, rfl⟩
  exact ⟨b, ps, hb, C7_parse_true_one_event_per_statement.1 300 _ z4 _ _ hb⟩

/-- C8 counterexample: the claim says a face statement with zero index groups
is a structural error.  The source accepts `"f\n"` silently and emits an
`onFace` event with count 0 (the buffer holding only the default-initialized
scratch entry). -/
theorem C8_zero_group_counterexample :
    eventsOf (runParse 200 ("f\n".data) z4) =
      some (.ok [Event.onFace [(0, 0, 0)] 0]) := by decide

/-- C8 amended: a face statement whose first lookahead token is not an integer
decodes zero groups and is accepted silently: `parseFace` emits an `onFace`
event with count 0 rather than reporting any error. -/
theorem C8_zero_groups_accepted_silently :
    ∀ fuel ps, ps.lex.m_peekToken.m_token ≠ .PT_INTEGER →
      parseFace (fuel + 1) ps = some (.ok { ps with
        m_vector_index_array := [(0, 0, 0)]
        events := ps.events ++ [Event.onFace [(0, 0, 0)] 0] }) := by
  intro fuel ps h
  have hpi : parseInteger fuel ps.lex = some (.ok (none, ps.lex)) := by
    unfold parseInteger
    cases hk : ps.lex.m_peekToken.m_token <;> first | rfl | (exact absurd hk h)
  unfold parseFace parseFaceLoop parseFaceIndices
  rw [hpi]
  rfl

/-- C8 witness: the zero-group lemma applied to an explicit parser state with
an end-statement lookahead. -/
theorem C8_zero_groups_witness :
    parseFace 31 psEmptyStmtDemo = some (.ok { psEmptyStmtDemo with
      m_vector_index_array := [(0, 0, 0)]
      events := psEmptyStmtDemo.events ++ [Event.onFace [(0, 0, 0)] 0] }) :=
  C8_zero_groups_accepted_silently 30 psEmptyStmtDemo (by decide)

/-- C9: the token-mismatch fatal path is unreachable during `parse()`: no
statement rule invokes `expectToken`, and the error-token dispatch arm can
never be taken because `lexToken` never produces an error-kind token; hence
every fatal error a run can produce is the lexer's unexpected-character
error. -/
theorem C9_only_lexical_fatal_errors :
    ∀ fuel input scratch e, runParse fuel input scratch = some (.error e) →
      e.isLexError = true := by
  intro fuel input scratch e h
  unfold runParse at h
  split at h
  · exact Option.noConfusion h
  · next e₁ heq =>
    cases h
    exact initPState_error _ _ _ _ heq
  · next ps₀ heq =>
    exact (parseLoop_good _ _ _ (initPState_ok _ _ _ _ heq).1 h).1 e rfl

/-- C9 witness: the concrete erroring run on `"@"` produces exactly the
lexical unexpected-character error. -/
theorem C9_only_lexical_witness :
    (Fatal.lexError 1 1 '@').isLexError = true :=
  C9_only_lexical_fatal_errors 100 ("@".data) z4 (Fatal.lexError 1 1 '@') (by decide)

/-- C10: a vertex/texture/normal statement with its mandatory numeric fields
absent does not abort and reports no error: the counter is still incremented,
the scratch slots keep the previous statement's values, and the Sink callback
is invoked with that stale content (the vertex 4th and texture 3rd slots get
their explicit defaults).  Concretely, after `"v 1 2 3 4"`, a bare `"vn"`
line delivers `onNormal(1, 2, 3)` from the stale buffer. -/
theorem C10_missing_mandatory_fields_stale :
    (eventsOf (runParse 400 ("v 1 2 3 4\nvn\n".data) z4) =
      some (.ok [Event.onVertex ⟨1, 1⟩ ⟨2, 1⟩ ⟨3, 1⟩ ⟨4, 1⟩,
                 Event.onNormal ⟨1, 1⟩ ⟨2, 1⟩ ⟨3, 1⟩])) ∧
    ∀ fuel ps, ps.lex.m_peekToken.m_token ≠ .PT_INTEGER →
      ps.lex.m_peekToken.m_token ≠ .PT_FLOAT →
      (parseNormal fuel ps = some (.ok { ps with
          stats := { ps.stats with m_normalCount := ps.stats.m_normalCount + 1 }
          events := ps.events ++
            [Event.onNormal ps.m_float4.1 ps.m_float4.2.1 ps.m_float4.2.2.1] }) ∧
       parseVertex fuel ps = some (.ok { ps with
          stats := { ps.stats with m_vertexCount := ps.stats.m_vertexCount + 1 }
          m_float4 := (ps.m_float4.1, ps.m_float4.2.1, ps.m_float4.2.2.1, qOfInt 1)
          events := ps.events ++ [Event.onVertex ps.m_float4.1 ps.m_float4.2.1
            ps.m_float4.2.2.1 (qOfInt 1)] }) ∧
       parseTexture fuel ps = some (.ok { ps with
          stats := { ps.stats with m_textureCount := ps.stats.m_textureCount + 1 }
          m_float4 := (ps.m_float4.1, ps.m_float4.2.1, qOfInt 1, ps.m_float4.2.2.2)
          events := ps.events ++ [Event.onTexture ps.m_float4.1 ps.m_float4.2.1
            (qOfInt 1)] })) := by
  refine ⟨by decide, ?_⟩
  intro fuel ps h1 h2
  have key : ∀ old, parseFloatApply fuel old ps.lex = some (.ok (old, false, ps.lex)) :=
    fun old => parseFloatApply_none fuel old ps.lex h1 h2
  refine ⟨?_, ?_, ?_⟩ <;> simp only [parseNormal, parseVertex, parseTexture, key] <;> rfl

/-- C10 witness: the stale-field lemma applied to an explicit parser state
with scratch buffer `(9, 8, 7, 6)` and an end-statement lookahead. -/
theorem C10_missing_fields_witness :
    parseNormal 50 psEmptyStmtDemo = some (.ok { psEmptyStmtDemo with
      stats := { psEmptyStmtDemo.stats with
        m_normalCount := psEmptyStmtDemo.stats.m_normalCount + 1 }
      events := psEmptyStmtDemo.events ++ [Event.onNormal psEmptyStmtDemo.m_float4.1
        psEmptyStmtDemo.m_float4.2.1 psEmptyStmtDemo.m_float4.2.2.1] }) :=
  (C10_missing_mandatory_fields_stale.2 50 psEmptyStmtDemo (by decide) (by decide)).1

end ObjParse
